import Mathlib

/-!
Verification of `src/table_inference_tools.py` (SQLA_Table_Inference_Tools).

The file shallowly embeds the single Python module of the repository:

* a pandas column (`pd.Series`) is modelled by `Col`, carrying the result of
  the external sniffer `pandas.api.types.infer_dtype`, its dtype name, and the
  timezone information reachable through `col.dt.tz` / `getattr(col, "tz", None)`;
* a `pd.DataFrame` is an ordered association list from column name to column;
* a Python `dict` (insertion ordered, value updated in place on an existing
  key) is an association list manipulated through `dictInsert` / `dictLookup`;
* the SQLAlchemy types appearing in the module are the inductive `SAType`;
  `Table(name, metadata)` returns the table registered under `name` when one
  exists and otherwise creates and registers an empty one (`Table_new`), and
  `Table.append_column` replaces an existing column of the same name in place
  or appends a new one (`TableDef.append_column`);
* raised Python exceptions are modelled with `Except`: the classification
  error that the spec names UnsupportedTypeError is raised in the code as
  `ValueError`, modelled by `PyError.valueError` with the exact message;
* `print` output is returned as an explicit list of emitted lines.
-/

/-- Python exceptions that the module can raise. -/
inductive PyError where
  | valueError (msg : String)
  | nameError (msg : String)
  | keyError (key : String)
  | typeError (msg : String)
  deriving DecidableEq, Repr

/-- The SQLAlchemy types imported at line 22 of the module, as an abstract
enumeration.  `timestamp b` is `TIMESTAMP(timezone=b)`; `float p` is
`Float(precision=p)`. -/
inductive SAType where
  | timestamp (timezone : Bool)
  | dateTime
  | bigInteger
  | float (precision : Nat)
  | smallInteger
  | integer
  | boolean
  | date
  | time
  | text
  deriving DecidableEq, Repr

/-- Model of Python `str.lower()`, mapping `Char.toLower` over the characters.
(Extensionally the same as `String.toLower`, which is defined by well-founded
recursion over byte positions and therefore does not evaluate inside the
kernel; this list-map form does.) -/
def strLower (s : String) : String := ⟨s.data.map Char.toLower⟩

/-- Model of one pandas column (`pd.Series`), as far as
`_infer_sqlalchemy_dtype` observes it:

* `inferred_dtype` is the result of the external sniffer
  `pandas.api.types.infer_dtype(col)` (line 84);
* `dtype_name` is `col.dtype.name` (compared to `"float32"` at line 106
  and lowercased at lines 111-115);
* `dt_tz` models the access `col.dt.tz` at line 92: `none` means the
  attribute access raises `AttributeError` (the column is index-like),
  `some b` means the access succeeds and `b` decides `col.dt.tz is not None`;
* `tz_attr` decides `getattr(col, "tz", None) is not None` (line 97). -/
structure Col where
  inferred_dtype : String
  dtype_name : String
  dt_tz : Option Bool
  tz_attr : Bool
  deriving DecidableEq, Repr

/-- The line printed by the `timedelta64` arm (line 101). -/
def timedeltaWarning : String :=
  "'timedelta' type is unsupported; will be written as int value to db"

/-- The pure decision core of `TableInferenceTools._infer_sqlalchemy_dtype`
(lines 87-130): the `match pd_api_type:` statement.  Python's structural
match on string literals dispatches on equality with first-match-wins
semantics, rendered here as a chain of conditionals in source order; the
tuple-membership tests of lines 111-113 are the corresponding disjunctions
of equalities.  The result carries the returned SQLAlchemy type together
with the list of lines printed on the way (only the `timedelta64` arm
prints). -/
def infer_core (c : Col) : Except PyError (SAType × List String) :=
  if c.inferred_dtype = "datetime64" ∨ c.inferred_dtype = "datetime" then
    match c.dt_tz with
    | some true => .ok (.timestamp true, [])
    | some false => .ok (.dateTime, [])
    | none =>
      if c.tz_attr then .ok (.timestamp true, [])
      else .ok (.dateTime, [])
  else if c.inferred_dtype = "timedelta64" then
    .ok (.bigInteger, [timedeltaWarning])
  else if c.inferred_dtype = "floating" then
    if c.dtype_name = "float32" then .ok (.float 23, [])
    else .ok (.float 53, [])
  else if c.inferred_dtype = "integer" then
    if strLower c.dtype_name = "int8" ∨ strLower c.dtype_name = "uint8" ∨
        strLower c.dtype_name = "int16" then
      .ok (.smallInteger, [])
    else if strLower c.dtype_name = "uint16" ∨ strLower c.dtype_name = "int32" then
      .ok (.integer, [])
    else if strLower c.dtype_name = "uint64" then
      .error (.valueError "Unsigned 64 bit integer datatype is not supported")
    else
      .ok (.bigInteger, [])
  else if c.inferred_dtype = "boolean" then .ok (.boolean, [])
  else if c.inferred_dtype = "date" then .ok (.date, [])
  else if c.inferred_dtype = "time" then .ok (.time, [])
  else if c.inferred_dtype = "complex" then
    .error (.valueError "Complex datatypes not supported")
  else
    .ok (.text, [])

/-- The element kinds that have a dedicated arm in the `match` statement;
every other sniffer result falls to the `case _` arm. -/
def matchedKinds : List String :=
  ["datetime64", "datetime", "timedelta64", "floating", "integer",
   "boolean", "date", "time", "complex"]

/-- Claim-side description of the timezone-lookup protocol of lines 90-98:
the column carries timezone information when `col.dt.tz` is accessible and
not `None`, or, when that access raises `AttributeError`, when
`getattr(col, "tz", None)` is not `None`. -/
def carriesTzInfo (c : Col) : Bool :=
  match c.dt_tz with
  | some b => b
  | none => c.tz_attr

/-- C2: for a column sniffed as `integer`, widths int8/uint8/int16 give
SmallInteger, uint16/int32 give Integer, uint64 raises the unsupported-type
error, and every other width (int64, uint32, ...) gives BigInteger. -/
theorem claim_C2_integer_widths (c : Col) (h : c.inferred_dtype = "integer") :
    (strLower c.dtype_name ∈ (["int8", "uint8", "int16"] : List String) →
      infer_core c = .ok (.smallInteger, [])) ∧
    (strLower c.dtype_name ∈ (["uint16", "int32"] : List String) →
      infer_core c = .ok (.integer, [])) ∧
    (strLower c.dtype_name = "uint64" →
      infer_core c =
        .error (.valueError "Unsigned 64 bit integer datatype is not supported")) ∧
    (strLower c.dtype_name ∉
        (["int8", "uint8", "int16", "uint16", "int32", "uint64"] : List String) →
      infer_core c = .ok (.bigInteger, [])) := by
  refine ⟨?_, ?_, ?_, ?_⟩ <;> intro hw
  · simp only [List.mem_cons, List.not_mem_nil, or_false] at hw
    rcases hw with hw | hw | hw <;> simp [infer_core, h, hw]
  · simp only [List.mem_cons, List.not_mem_nil, or_false] at hw
    rcases hw with hw | hw <;> simp [infer_core, h, hw]
  · simp [infer_core, h, hw]
  · simp only [List.mem_cons, List.not_mem_nil, or_false] at hw
    push_neg at hw
    obtain ⟨n1, n2, n3, n4, n5, n6⟩ := hw
    simp [infer_core, h, n1, n2, n3, n4, n5, n6]

/-- C2 witness at the concrete column int16. -/
theorem claim_C2_integer_widths_witness :
    infer_core ⟨"integer", "int16", none, false⟩ = .ok (.smallInteger, []) :=
  (claim_C2_integer_widths ⟨"integer", "int16", none, false⟩ rfl).1 (by decide)

/-- Helper for C5: outside the two rejected shapes the classifier returns
some value. -/
theorem infer_core_ok_of (c : Col)
    (h : ¬(c.inferred_dtype = "complex" ∨
        (c.inferred_dtype = "integer" ∧ strLower c.dtype_name = "uint64"))) :
    ∃ v, infer_core c = .ok v := by
  push_neg at h
  obtain ⟨hc, h2⟩ := h
  by_cases h1 : c.inferred_dtype = "datetime64" ∨ c.inferred_dtype = "datetime"
  · rcases hdt : c.dt_tz with _ | b
    · by_cases ht : c.tz_attr
      · exact ⟨(.timestamp true, []), by simp [infer_core, h1, hdt, ht]⟩
      · exact ⟨(.dateTime, []), by simp [infer_core, h1, hdt, ht]⟩
    · rcases b
      · exact ⟨(.dateTime, []), by simp [infer_core, h1, hdt]⟩
      · exact ⟨(.timestamp true, []), by simp [infer_core, h1, hdt]⟩
  by_cases ha : c.inferred_dtype = "timedelta64"
  · exact ⟨(.bigInteger, [timedeltaWarning]), by simp [infer_core, h1, ha]⟩
  by_cases hb : c.inferred_dtype = "floating"
  · by_cases hf : c.dtype_name = "float32"
    · exact ⟨(.float 23, []), by simp [infer_core, h1, ha, hb, hf]⟩
    · exact ⟨(.float 53, []), by simp [infer_core, h1, ha, hb, hf]⟩
  by_cases hi : c.inferred_dtype = "integer"
  · have hw : ¬ strLower c.dtype_name = "uint64" := h2 hi
    by_cases hs : strLower c.dtype_name = "int8" ∨ strLower c.dtype_name = "uint8" ∨
        strLower c.dtype_name = "int16"
    · exact ⟨(.smallInteger, []), by simp [infer_core, h1, ha, hb, hi, hs]⟩
    by_cases hm : strLower c.dtype_name = "uint16" ∨ strLower c.dtype_name = "int32"
    · exact ⟨(.integer, []), by simp [infer_core, h1, ha, hb, hi, hs, hm]⟩
    · exact ⟨(.bigInteger, []), by simp [infer_core, h1, ha, hb, hi, hs, hm, hw]⟩
  by_cases hb2 : c.inferred_dtype = "boolean"
  · exact ⟨(.boolean, []), by simp [infer_core, h1, ha, hb, hi, hb2]⟩
  by_cases hd : c.inferred_dtype = "date"
  · exact ⟨(.date, []), by simp [infer_core, h1, ha, hb, hi, hb2, hd]⟩
  by_cases hti : c.inferred_dtype = "time"
  · exact ⟨(.time, []), by simp [infer_core, h1, ha, hb, hi, hb2, hd, hti]⟩
  · exact ⟨(.text, []), by simp [infer_core, h1, ha, hb, hi, hb2, hd, hti, hc]⟩

/-- C5: the classifier fails exactly on `complex` columns and on `integer`
columns of width uint64; any element kind without a dedicated match arm
(including the sniffer results for empty and all-null columns) yields Text;
and the complex failure carries the complex-specific message. -/
theorem claim_C5_error_iff (c : Col) :
    ((∃ e, infer_core c = .error e) ↔
      (c.inferred_dtype = "complex" ∨
        (c.inferred_dtype = "integer" ∧ strLower c.dtype_name = "uint64"))) ∧
    (c.inferred_dtype ∉ matchedKinds → infer_core c = .ok (.text, [])) ∧
    (c.inferred_dtype = "complex" →
      infer_core c = .error (.valueError "Complex datatypes not supported")) := by
  refine ⟨?_, ?_, ?_⟩
  · constructor
    · rintro ⟨e, he⟩
      by_contra hrhs
      obtain ⟨v, hv⟩ := infer_core_ok_of c hrhs
      rw [hv] at he
      exact Except.noConfusion he
    · rintro (hc | ⟨hi, hw⟩)
      · exact ⟨.valueError "Complex datatypes not supported", by simp [infer_core, hc]⟩
      · exact ⟨.valueError "Unsigned 64 bit integer datatype is not supported",
          by simp [infer_core, hi, hw]⟩
  · intro hout
    simp only [matchedKinds, List.mem_cons, List.not_mem_nil, or_false] at hout
    push_neg at hout
    obtain ⟨n1, n2, n3, n4, n5, n6, n7, n8, n9⟩ := hout
    simp [infer_core, n1, n2, n3, n4, n5, n6, n7, n8, n9]
  · intro hc
    simp [infer_core, hc]

/-- C5 witness at a concrete complex column. -/
theorem claim_C5_error_iff_witness :
    infer_core ⟨"complex", "complex128", none, false⟩ =
      .error (.valueError "Complex datatypes not supported") :=
  (claim_C5_error_iff ⟨"complex", "complex128", none, false⟩).2.2 rfl

/-- C6: for a column sniffed as `datetime64` or `datetime`, the result is
TIMESTAMP(timezone=True) exactly when the timezone-lookup protocol finds a
timezone (directly via `col.dt.tz`, or via `getattr(col, "tz", None)` when
the direct access raises `AttributeError`), and DateTime otherwise; the
branch never fails, so the `AttributeError` is never propagated. -/
theorem claim_C6_datetime_tz (c : Col)
    (h : c.inferred_dtype = "datetime64" ∨ c.inferred_dtype = "datetime") :
    infer_core c =
      .ok ((if carriesTzInfo c then SAType.timestamp true else SAType.dateTime), []) := by
  obtain ⟨kind, dname, dtz, tza⟩ := c
  rcases dtz with _ | b
  · rcases h with h | h <;> simp only at h <;> subst h <;>
      simp only [infer_core, carriesTzInfo] <;> cases tza <;> simp
  · rcases b <;> rcases h with h | h <;> simp only at h <;> subst h <;>
      simp [infer_core, carriesTzInfo]

/-- C6 witness at a concrete timezone-aware datetime column. -/
theorem claim_C6_datetime_tz_witness :
    infer_core ⟨"datetime64", "datetime64[ns, UTC]", some true, false⟩ =
      .ok ((if carriesTzInfo ⟨"datetime64", "datetime64[ns, UTC]", some true, false⟩
            then SAType.timestamp true else SAType.dateTime), []) :=
  claim_C6_datetime_tz ⟨"datetime64", "datetime64[ns, UTC]", some true, false⟩ (Or.inl rfl)

/-- C7: a `floating` column of storage width float32 yields Float(precision=23)
and any other storage width yields Float(precision=53). -/
theorem claim_C7_floating (c : Col) (h : c.inferred_dtype = "floating") :
    (c.dtype_name = "float32" → infer_core c = .ok (.float 23, [])) ∧
    (c.dtype_name ≠ "float32" → infer_core c = .ok (.float 53, [])) := by
  constructor <;> intro hw <;> simp [infer_core, h, hw]

/-- C7 witness at a concrete float32 column. -/
theorem claim_C7_floating_witness :
    infer_core ⟨"floating", "float32", none, false⟩ = .ok (.float 23, []) :=
  (claim_C7_floating ⟨"floating", "float32", none, false⟩ rfl).1 rfl

/-- C9: a `timedelta64` column always succeeds with BigInteger and prints the
warning that the value will be written to the database as an integer. -/
theorem claim_C9_timedelta (c : Col) (h : c.inferred_dtype = "timedelta64") :
    infer_core c = .ok (.bigInteger, [timedeltaWarning]) := by
  simp [infer_core, h]

/-- C9 witness at a concrete timedelta column. -/
theorem claim_C9_timedelta_witness :
    infer_core ⟨"timedelta64", "timedelta64[ns]", none, false⟩ =
      .ok (.bigInteger, [timedeltaWarning]) :=
  claim_C9_timedelta ⟨"timedelta64", "timedelta64[ns]", none, false⟩ rfl

/-- Python `dict` update `m[k] = v`: the value of an existing key is replaced
in place (the key keeps its insertion position), a new key is appended. -/
def dictInsert {β : Type} (m : List (String × β)) (k : String) (v : β) :
    List (String × β) :=
  match m with
  | [] => [(k, v)]
  | (k', v') :: rest =>
    if k' = k then (k', v) :: rest else (k', v') :: dictInsert rest k v

/-- Python `dict` lookup `m[k]` / `m.get(k)`: the first binding of the key. -/
def dictLookup {β : Type} (m : List (String × β)) (k : String) : Option β :=
  match m with
  | [] => none
  | (k', v') :: rest => if k' = k then some v' else dictLookup rest k

/-- A pandas `DataFrame` as `get_table_schema` observes it: an ordered
association of column names to columns.  `df.columns` is the name list and
`df[colname]` is `dictLookup`. -/
abbrev DataFrame := List (String × Col)

/-- The ordered column-name list `df.columns`. -/
def DataFrame.columns (df : DataFrame) : List String := df.map Prod.fst

/-- A SQLAlchemy `Table`: the table name plus the ordered column collection,
each column a (name, type) pair. -/
structure TableDef where
  name : String
  columns : List (String × SAType)
  deriving DecidableEq, Repr

/-- SQLAlchemy `Table.append_column(Column(name, ty))`: a column whose name is
already present is replaced in place (SQLAlchemy's deprecated-replace
behaviour, position preserved); otherwise the column is appended. -/
def TableDef.append_column (t : TableDef) (cname : String) (ty : SAType) : TableDef :=
  { t with columns := dictInsert t.columns cname ty }

/-- SQLAlchemy `Table(table_name, metadata)` with no further arguments: when a
table of that name is already registered in the metadata it is returned
unchanged, otherwise a fresh table with no columns is created and
registered. -/
def Table_new (tname : String) (md : List (String × TableDef)) :
    TableDef × List (String × TableDef) :=
  match dictLookup md tname with
  | some t => (t, md)
  | none => (⟨tname, []⟩, dictInsert md tname ⟨tname, []⟩)

/-- The instance state of `TableInferenceTools`, i.e. the fields assigned at
lines 30-35 of `__init__` (the `logger` field is never reached, see
`TableInferenceTools.pyInit`). -/
structure TableInferenceTools where
  data : Option DataFrame
  column_type_map : List (String × SAType)
  pd_api_dtype_map : List (String × String)
  table_name : Option String
  table_schema : Option TableDef
  metadata : List (String × TableDef)
  deriving DecidableEq, Repr

/-- The field state established by lines 30-35 of `__init__`. -/
def initState : TableInferenceTools :=
  { data := none
    column_type_map := []
    pd_api_dtype_map := []
    table_name := none
    table_schema := none
    metadata := [] }

/-- Names bound at module level of `table_inference_tools.py`: the import
statements at lines 19-22 bind `pd_api`, `pd`, `Table`, `Column`, `MetaData`
and the ten names of line 22; line 24 binds `DialectType` and line 26 binds
the class itself.  No statement of the module binds `logging`. -/
def moduleGlobalNames : List String :=
  ["pd_api", "pd", "Table", "Column", "MetaData",
   "TIMESTAMP", "BigInteger", "Boolean", "Date", "DateTime", "Float",
   "Integer", "SmallInteger", "Text", "Time",
   "DialectType", "TableInferenceTools"]

/-- The global name referenced by the first statement of `__init__`
(line 28, `self.logger = logging.getLogger(__name__)`). -/
def initFirstGlobalRef : String := "logging"

/-- Python name resolution for `TableInferenceTools()`: the first statement of
`__init__` evaluates the global `logging`; when that name is bound neither by
the module globals (nor, as is the case, by the builtins) the constructor
raises `NameError` before any field is assigned. -/
def TableInferenceTools.pyInit : Except PyError TableInferenceTools :=
  if moduleGlobalNames.contains initFirstGlobalRef then .ok initState
  else .error (.nameError "name 'logging' is not defined")

/-- C3: constructing a `TableInferenceTools` instance always raises
`NameError`, because `__init__` references `logging`, a name the module never
imports; hence no public operation of the class is reachable on a freshly
constructed instance. -/
theorem claim_C3_init_raises_nameError :
    TableInferenceTools.pyInit = .error (.nameError "name 'logging' is not defined") := by
  rfl

/-- Line 50 of `get_table_schema`:
`self.column_type_map[colname] = self._infer_sqlalchemy_dtype(colname)`.
The helper `_infer_sqlalchemy_dtype` (lines 61-130) reads
`col = self.data[colname]` (a `TypeError` if `self.data` is `None`, a
`KeyError` if the name is absent), records the sniffed element kind in the
diagnostic map `pd_api_dtype_map` (line 85), and then runs the decision core.
The returned triple is the classified type, the updated instance state and
the printed lines. -/
def TableInferenceTools.infer_sqlalchemy_dtype (self : TableInferenceTools)
    (colname : String) :
    Except PyError (SAType × TableInferenceTools × List String) :=
  match self.data with
  | none => .error (.typeError "NoneType object is not subscriptable")
  | some df =>
    match dictLookup df colname with
    | none => .error (.keyError colname)
    | some col =>
      let self1 := { self with
        pd_api_dtype_map := dictInsert self.pd_api_dtype_map colname col.inferred_dtype }
      match infer_core col with
      | .ok (t, w) => .ok (t, self1, w)
      | .error e => .error e

/-- The `for colname in self.data.columns:` loop of lines 49-50: each column is
classified in order and entered into `column_type_map`; a raised classifier
error aborts the loop and propagates. -/
def inferLoop (self : TableInferenceTools) (names : List String) :
    Except PyError TableInferenceTools :=
  match names with
  | [] => .ok self
  | n :: rest =>
    match self.infer_sqlalchemy_dtype n with
    | .error e => .error e
    | .ok (t, self1, _w) =>
      inferLoop { self1 with column_type_map := dictInsert self1.column_type_map n t } rest

/-- `_create_table_schema` (lines 55-59): obtain the `Table` object for the
name from the instance metadata, append one column per `column_type_map`
entry, and store the result in `table_schema` (the metadata registry holds the
same mutated table object). -/
def TableInferenceTools.create_table_schema (self : TableInferenceTools)
    (tname : String) : TableInferenceTools :=
  let t0 := (Table_new tname self.metadata).1
  let md0 := (Table_new tname self.metadata).2
  let t := self.column_type_map.foldl (fun tb kv => tb.append_column kv.1 kv.2) t0
  { self with table_schema := some t, metadata := dictInsert md0 tname t }

/-- `get_table_schema` (lines 37-53): store the dataset and table name, run
the classification loop over `self.data.columns`, build the table schema and
return `self.table_schema`.  On success the result pairs the returned table
with the updated instance state; a raised error propagates. -/
def TableInferenceTools.get_table_schema (self : TableInferenceTools)
    (df : DataFrame) (tname : String) :
    Except PyError (TableDef × TableInferenceTools) :=
  let self1 := { self with data := some df, table_name := some tname }
  match inferLoop self1 (DataFrame.columns df) with
  | .error e => .error e
  | .ok self2 =>
    let self3 := self2.create_table_schema tname
    .ok (self3.table_schema.getD ⟨tname, []⟩, self3)

/-- Key-level effect of `dictInsert`: an existing key leaves the key sequence
unchanged, a new key is appended. -/
def keyInsert (l : List String) (k : String) : List String :=
  if k ∈ l then l else l ++ [k]

theorem dictInsert_of_not_mem {β : Type} (m : List (String × β)) (k : String) (v : β)
    (h : k ∉ m.map Prod.fst) : dictInsert m k v = m ++ [(k, v)] := by
  induction m with
  | nil => rfl
  | cons kv rest ih =>
    obtain ⟨k', v'⟩ := kv
    simp only [List.map_cons, List.mem_cons] at h
    push_neg at h
    simp only [dictInsert, List.cons_append]
    rw [if_neg (fun he => h.1 he.symm), ih h.2]

theorem dictInsert_keys {β : Type} (m : List (String × β)) (k : String) (v : β) :
    (dictInsert m k v).map Prod.fst = keyInsert (m.map Prod.fst) k := by
  induction m with
  | nil => simp [dictInsert, keyInsert]
  | cons kv rest ih =>
    obtain ⟨k', v'⟩ := kv
    by_cases h : k' = k
    · subst h
      simp [dictInsert, keyInsert]
    · simp only [dictInsert, if_neg h, List.map_cons, ih, keyInsert]
      have hkk : ¬ k = k' := fun he => h he.symm
      by_cases hm : k ∈ rest.map Prod.fst
      · rw [if_pos hm, if_pos (by simp [hm])]
      · rw [if_neg hm, if_neg (by simp [hm, hkk])]
        simp

theorem dictLookup_insert {β : Type} (m : List (String × β)) (k : String) (v : β) :
    dictLookup (dictInsert m k v) k = some v := by
  induction m with
  | nil => simp [dictInsert, dictLookup]
  | cons kv rest ih =>
    obtain ⟨k', v'⟩ := kv
    by_cases h : k' = k <;> simp [dictInsert, dictLookup, h, ih]

theorem dictLookup_insert_ne {β : Type} (m : List (String × β)) (k k' : String) (v : β)
    (hne : k' ≠ k) : dictLookup (dictInsert m k v) k' = dictLookup m k' := by
  induction m with
  | nil => simp [dictInsert, dictLookup, Ne.symm hne]
  | cons kv rest ih =>
    obtain ⟨k'', v''⟩ := kv
    by_cases h : k'' = k
    · have h' : ¬ k'' = k' := fun he => hne (he.symm.trans h)
      simp [dictInsert, dictLookup, h, h', Ne.symm hne]
    · simp [dictInsert, dictLookup, h, ih]

theorem dictInsert_lookup_eq {β : Type} (m : List (String × β)) (k : String) (v : β)
    (h : dictLookup m k = some v) : dictInsert m k v = m := by
  induction m with
  | nil => simp [dictLookup] at h
  | cons kv rest ih =>
    obtain ⟨k', v'⟩ := kv
    by_cases he : k' = k
    · simp only [dictLookup, if_pos he, Option.some.injEq] at h
      simp [dictInsert, he, h]
    · simp only [dictLookup, if_neg he] at h
      simp [dictInsert, he, ih h]

theorem dictLookup_mem_keys {β : Type} (m : List (String × β)) (k : String) (v : β)
    (h : dictLookup m k = some v) : k ∈ m.map Prod.fst := by
  induction m with
  | nil => simp [dictLookup] at h
  | cons kv rest ih =>
    obtain ⟨k', v'⟩ := kv
    by_cases he : k' = k
    · simp [he]
    · simp only [dictLookup, if_neg he] at h
      simp [ih h]

theorem dictLookup_of_mem_nodup {β : Type} (m : List (String × β)) (k : String) (v : β)
    (hmem : (k, v) ∈ m) (hnd : (m.map Prod.fst).Nodup) : dictLookup m k = some v := by
  induction m with
  | nil => simp at hmem
  | cons kv rest ih =>
    obtain ⟨k', v'⟩ := kv
    simp only [List.map_cons, List.nodup_cons] at hnd
    rcases List.mem_cons.mp hmem with he | hm
    · injection he with h1 h2
      subst h1
      subst h2
      simp [dictLookup]
    · have hne : k' ≠ k := by
        rintro rfl
        exact hnd.1 (by simpa using List.mem_map_of_mem Prod.fst hm)
      simp [dictLookup, hne, ih hm hnd.2]

theorem keyInsert_nodup (l : List String) (k : String) (h : l.Nodup) :
    (keyInsert l k).Nodup := by
  unfold keyInsert
  split_ifs with hm
  · exact h
  · simp [List.nodup_append, h, hm]

theorem dictInsert_keys_nodup {β : Type} (m : List (String × β)) (k : String) (v : β)
    (h : (m.map Prod.fst).Nodup) : ((dictInsert m k v).map Prod.fst).Nodup := by
  rw [dictInsert_keys]
  exact keyInsert_nodup _ _ h

/-- Folding a per-name insertion over a name list: the effect of the
classification loop on either instance map. -/
def insertMany {β : Type} (m0 : List (String × β)) (f : String → β)
    (names : List String) : List (String × β) :=
  names.foldl (fun m n => dictInsert m n (f n)) m0

/-- Folding the entries of one dict into another: the effect of the
`append_column` loop of `_create_table_schema` on a table's column list. -/
def insertPairs {β : Type} (acc : List (String × β)) (l : List (String × β)) :
    List (String × β) :=
  l.foldl (fun cols kv => dictInsert cols kv.1 kv.2) acc

theorem insertMany_cons {β : Type} (m0 : List (String × β)) (f : String → β)
    (n : String) (rest : List String) :
    insertMany m0 f (n :: rest) = insertMany (dictInsert m0 n (f n)) f rest := rfl

theorem insertPairs_cons {β : Type} (acc : List (String × β)) (k : String) (v : β)
    (l : List (String × β)) :
    insertPairs acc ((k, v) :: l) = insertPairs (dictInsert acc k v) l := rfl

theorem insertMany_append {β : Type} (names : List String) :
    ∀ (m0 : List (String × β)) (f : String → β), names.Nodup →
    (∀ n ∈ names, n ∉ m0.map Prod.fst) →
    insertMany m0 f names = m0 ++ names.map (fun n => (n, f n)) := by
  induction names with
  | nil =>
    intro m0 f _ _
    simp [insertMany]
  | cons n rest ih =>
    intro m0 f hnd hd
    simp only [List.nodup_cons] at hnd
    have h1 : n ∉ m0.map Prod.fst := hd n (List.mem_cons_self n rest)
    have h2 : ∀ x ∈ rest, x ∉ (m0 ++ [(n, f n)]).map Prod.fst := by
      intro x hx hmem
      rw [List.map_append] at hmem
      rcases List.mem_append.mp hmem with h3 | h3
      · exact hd x (List.mem_cons_of_mem n hx) h3
      · have hxn : x = n := by simpa using h3
        exact hnd.1 (hxn ▸ hx)
    rw [insertMany_cons, dictInsert_of_not_mem m0 n (f n) h1,
      ih (m0 ++ [(n, f n)]) f hnd.2 h2]
    simp

theorem insertMany_lookup_not_mem {β : Type} (names : List String) :
    ∀ (m0 : List (String × β)) (f : String → β) (n : String), n ∉ names →
    dictLookup (insertMany m0 f names) n = dictLookup m0 n := by
  induction names with
  | nil => intros; rfl
  | cons x rest ih =>
    intro m0 f n hn
    simp only [List.mem_cons] at hn
    push_neg at hn
    rw [insertMany_cons, ih _ f n hn.2, dictLookup_insert_ne _ x n (f x) hn.1]

theorem insertMany_lookup_mem {β : Type} (names : List String) :
    ∀ (m0 : List (String × β)) (f : String → β) (n : String), n ∈ names →
    dictLookup (insertMany m0 f names) n = some (f n) := by
  induction names with
  | nil =>
    intro _ _ _ h
    simp at h
  | cons x rest ih =>
    intro m0 f n hn
    by_cases hr : n ∈ rest
    · rw [insertMany_cons, ih _ f n hr]
    · have hx : n = x := by
        rcases List.mem_cons.mp hn with h | h
        · exact h
        · exact absurd h hr
      subst hx
      rw [insertMany_cons, insertMany_lookup_not_mem rest _ f n hr, dictLookup_insert]

theorem insertMany_noop {β : Type} (names : List String) :
    ∀ (m : List (String × β)) (f : String → β),
    (∀ n ∈ names, dictLookup m n = some (f n)) → insertMany m f names = m := by
  induction names with
  | nil => intros; rfl
  | cons x rest ih =>
    intro m f h
    rw [insertMany_cons, dictInsert_lookup_eq m x (f x) (h x (List.mem_cons_self x rest))]
    exact ih m f (fun n hn => h n (List.mem_cons_of_mem x hn))

theorem insertMany_keys {β : Type} (names : List String) :
    ∀ (m0 : List (String × β)) (f : String → β), names.Nodup →
    (insertMany m0 f names).map Prod.fst =
      m0.map Prod.fst ++ names.filter (fun n => decide (n ∉ m0.map Prod.fst)) := by
  induction names with
  | nil =>
    intros
    simp [insertMany]
  | cons x rest ih =>
    intro m0 f hnd
    simp only [List.nodup_cons] at hnd
    rw [insertMany_cons, ih _ f hnd.2, dictInsert_keys]
    by_cases hm : x ∈ m0.map Prod.fst
    · rw [keyInsert, if_pos hm, List.filter_cons, if_neg (by simp [hm])]
    · have hcongr : ∀ n ∈ rest,
          (decide (n ∉ m0.map Prod.fst ++ [x]) : Bool) = decide (n ∉ m0.map Prod.fst) := by
        intro n hn
        have hne : n ≠ x := fun he => hnd.1 (he ▸ hn)
        simp [List.mem_append, hne]
      rw [keyInsert, if_neg hm, List.filter_cons, if_pos (by simp [hm]),
        List.filter_congr hcongr]
      simp

theorem insertMany_keys_nodup {β : Type} (names : List String) :
    ∀ (m0 : List (String × β)) (f : String → β),
    (m0.map Prod.fst).Nodup → ((insertMany m0 f names).map Prod.fst).Nodup := by
  induction names with
  | nil => intro _ _ h; exact h
  | cons x rest ih =>
    intro m0 f h
    exact ih _ f (dictInsert_keys_nodup m0 x (f x) h)

theorem insertPairs_noop {β : Type} (l : List (String × β)) :
    ∀ acc : List (String × β),
    (∀ kv ∈ l, dictLookup acc kv.1 = some kv.2) → insertPairs acc l = acc := by
  induction l with
  | nil => intros; rfl
  | cons kv rest ih =>
    intro acc h
    obtain ⟨k, v⟩ := kv
    rw [insertPairs_cons, dictInsert_lookup_eq acc k v (h (k, v) (List.mem_cons_self _ rest))]
    exact ih acc (fun x hx => h x (List.mem_cons_of_mem (k, v) hx))

theorem insertPairs_append {β : Type} (l : List (String × β)) :
    ∀ acc : List (String × β), (l.map Prod.fst).Nodup →
    (∀ k ∈ l.map Prod.fst, k ∉ acc.map Prod.fst) →
    insertPairs acc l = acc ++ l := by
  induction l with
  | nil =>
    intros
    simp [insertPairs]
  | cons kv rest ih =>
    intro acc hnd hd
    obtain ⟨k, v⟩ := kv
    simp only [List.map_cons, List.nodup_cons] at hnd
    have h1 : k ∉ acc.map Prod.fst := hd k (by simp)
    have h2 : ∀ x ∈ rest.map Prod.fst, x ∉ (acc ++ [(k, v)]).map Prod.fst := by
      intro x hx hmem
      rw [List.map_append] at hmem
      rcases List.mem_append.mp hmem with h3 | h3
      · exact hd x (by simp [hx]) h3
      · have hxk : x = k := by simpa using h3
        exact hnd.1 (hxk ▸ hx)
    rw [insertPairs_cons, dictInsert_of_not_mem acc k v h1, ih (acc ++ [(k, v)]) hnd.2 h2]
    simp

theorem insertPairs_keys {β : Type} (l : List (String × β)) :
    ∀ acc : List (String × β), (l.map Prod.fst).Nodup →
    (insertPairs acc l).map Prod.fst =
      acc.map Prod.fst ++
        (l.map Prod.fst).filter (fun k => decide (k ∉ acc.map Prod.fst)) := by
  induction l with
  | nil =>
    intros
    simp [insertPairs]
  | cons kv rest ih =>
    intro acc hnd
    obtain ⟨k, v⟩ := kv
    simp only [List.map_cons, List.nodup_cons] at hnd
    rw [insertPairs_cons, ih _ hnd.2, dictInsert_keys]
    simp only [List.map_cons]
    by_cases hm : k ∈ acc.map Prod.fst
    · rw [keyInsert, if_pos hm, List.filter_cons, if_neg (by simp [hm])]
    · have hcongr : ∀ n ∈ rest.map Prod.fst,
          (decide (n ∉ acc.map Prod.fst ++ [k]) : Bool) = decide (n ∉ acc.map Prod.fst) := by
        intro n hn
        have hne : n ≠ k := fun he => hnd.1 (he ▸ hn)
        simp [List.mem_append, hne]
      rw [keyInsert, if_neg hm, List.filter_cons, if_pos (by simp [hm]),
        List.filter_congr hcongr]
      simp

/-- Total per-name view of the classified type of a dataset column
(`SAType.text` as a junk value for names outside the dataset or failing
columns; the characterization lemmas only apply it where classification
succeeds). -/
def dfColTypeD (df : DataFrame) (n : String) : SAType :=
  match dictLookup df n with
  | some c =>
    match infer_core c with
    | .ok (t, _) => t
    | .error _ => SAType.text
  | none => SAType.text

/-- Total per-name view of the sniffed element kind of a dataset column. -/
def dfColKindD (df : DataFrame) (n : String) : String :=
  match dictLookup df n with
  | some c => c.inferred_dtype
  | none => ""

/-- Classification succeeds for every listed column name of the dataset. -/
def colsOk (df : DataFrame) (names : List String) : Prop :=
  ∀ n ∈ names, ∃ c t w, dictLookup df n = some c ∧ infer_core c = .ok (t, w)

theorem infer_sqlalchemy_dtype_ok_inv (self : TableInferenceTools) (n : String)
    (t : SAType) (s1 : TableInferenceTools) (w : List String) (df : DataFrame)
    (hdata : self.data = some df)
    (h : self.infer_sqlalchemy_dtype n = .ok (t, s1, w)) :
    ∃ c, dictLookup df n = some c ∧ infer_core c = .ok (t, w) ∧
      s1 = { self with
        pd_api_dtype_map := dictInsert self.pd_api_dtype_map n c.inferred_dtype } := by
  simp only [TableInferenceTools.infer_sqlalchemy_dtype, hdata] at h
  rcases hc : dictLookup df n with _ | c
  · simp only [hc] at h
    exact Except.noConfusion h
  · simp only [hc] at h
    rcases hcore : infer_core c with e | tw
    · simp only [hcore] at h
      exact Except.noConfusion h
    · obtain ⟨t', w'⟩ := tw
      simp only [hcore, Except.ok.injEq, Prod.mk.injEq] at h
      obtain ⟨ht, hs, hw⟩ := h
      refine ⟨c, rfl, ?_, ?_⟩
      · rw [← ht, ← hw]
        exact hcore
      · rw [hdata]
        exact hs.symm

theorem inferLoop_ok (df : DataFrame) (names : List String) :
    ∀ self : TableInferenceTools, self.data = some df → colsOk df names →
    inferLoop self names = .ok { self with
      column_type_map := insertMany self.column_type_map (dfColTypeD df) names,
      pd_api_dtype_map := insertMany self.pd_api_dtype_map (dfColKindD df) names } := by
  induction names with
  | nil =>
    intro self hdata _
    simp [inferLoop, insertMany]
  | cons n rest ih =>
    intro self hdata hok
    obtain ⟨c, t, w, hc, hcore⟩ := hok n (List.mem_cons_self n rest)
    have hinfer : self.infer_sqlalchemy_dtype n =
        .ok (t, { self with
          pd_api_dtype_map := dictInsert self.pd_api_dtype_map n c.inferred_dtype }, w) := by
      simp [TableInferenceTools.infer_sqlalchemy_dtype, hdata, hc, hcore]
    have hft : dfColTypeD df n = t := by
      simp [dfColTypeD, hc, hcore]
    have hfk : dfColKindD df n = c.inferred_dtype := by
      simp [dfColKindD, hc]
    have hrec := ih { self with
        pd_api_dtype_map := dictInsert self.pd_api_dtype_map n c.inferred_dtype,
        column_type_map := dictInsert self.column_type_map n t }
      (by simp [hdata]) (fun x hx => hok x (List.mem_cons_of_mem n hx))
    simp only [inferLoop, hinfer, insertMany_cons, hft, hfk]
    simp only at hrec ⊢
    exact hrec

theorem inferLoop_ok_inv (df : DataFrame) (names : List String) :
    ∀ (self s' : TableInferenceTools), self.data = some df →
    inferLoop self names = .ok s' → colsOk df names := by
  induction names with
  | nil =>
    intro self s' _ _ n hn
    simp at hn
  | cons x rest ih =>
    intro self s' hdata h
    simp only [inferLoop] at h
    rcases hx : self.infer_sqlalchemy_dtype x with e | tsw
    · rw [hx] at h
      exact absurd h (by simp)
    · obtain ⟨t, self1, w⟩ := tsw
      rw [hx] at h
      obtain ⟨c, hc, hcore, hs1⟩ := infer_sqlalchemy_dtype_ok_inv self x t self1 w df hdata hx
      intro n hn
      rcases List.mem_cons.mp hn with rfl | hn'
      · exact ⟨c, t, w, hc, hcore⟩
      · have hd1 : ({ self1 with
            column_type_map := dictInsert self1.column_type_map x t }).data = some df := by
          rw [hs1]
          simpa using hdata
        exact ih _ s' hd1 h n hn'

/-- Shorthand for the final `column_type_map` of a call on a given state. -/
def mkCtm (self : TableInferenceTools) (df : DataFrame) : List (String × SAType) :=
  insertMany self.column_type_map (dfColTypeD df) (DataFrame.columns df)

/-- Shorthand for the final `pd_api_dtype_map` of a call on a given state. -/
def mkPdm (self : TableInferenceTools) (df : DataFrame) : List (String × String) :=
  insertMany self.pd_api_dtype_map (dfColKindD df) (DataFrame.columns df)

/-- Shorthand for the table a successful call returns: the table obtained from
the metadata registry for the name, with every `column_type_map` entry
appended (replacing same-name columns). -/
def mkTable (self : TableInferenceTools) (df : DataFrame) (tname : String) : TableDef :=
  ⟨(Table_new tname self.metadata).1.name,
    insertPairs (Table_new tname self.metadata).1.columns (mkCtm self df)⟩

/-- Shorthand for the instance state after a successful call. -/
def mkState (self : TableInferenceTools) (df : DataFrame) (tname : String) :
    TableInferenceTools :=
  { data := some df
    column_type_map := mkCtm self df
    pd_api_dtype_map := mkPdm self df
    table_name := some tname
    table_schema := some (mkTable self df tname)
    metadata := dictInsert (Table_new tname self.metadata).2 tname (mkTable self df tname) }

theorem foldl_append_column (l : List (String × SAType)) :
    ∀ t0 : TableDef,
    l.foldl (fun tb kv => tb.append_column kv.1 kv.2) t0 =
      ⟨t0.name, insertPairs t0.columns l⟩ := by
  induction l with
  | nil =>
    intro t0
    rfl
  | cons kv rest ih =>
    intro t0
    obtain ⟨k, v⟩ := kv
    rw [List.foldl_cons, ih, insertPairs_cons]
    rfl

/-- A call on a state whose columns all classify returns the characterized
table and state. -/
theorem get_table_schema_ok (self : TableInferenceTools) (df : DataFrame)
    (tname : String) (hok : colsOk df (DataFrame.columns df)) :
    self.get_table_schema df tname = .ok (mkTable self df tname, mkState self df tname) := by
  have hloop := inferLoop_ok df (DataFrame.columns df)
    { self with data := some df, table_name := some tname } (by simp) hok
  simp only [TableInferenceTools.get_table_schema, hloop]
  simp only [TableInferenceTools.create_table_schema, foldl_append_column]
  simp [mkState, mkTable, mkCtm, mkPdm]

/-- Inversion: a successful call implies every column classifies, and the
returned table and state are the characterized ones. -/
theorem get_table_schema_ok_inv (self : TableInferenceTools) (df : DataFrame)
    (tname : String) (t : TableDef) (s' : TableInferenceTools)
    (h : self.get_table_schema df tname = .ok (t, s')) :
    colsOk df (DataFrame.columns df) ∧
      t = mkTable self df tname ∧ s' = mkState self df tname := by
  have hok : colsOk df (DataFrame.columns df) := by
    rcases hloop : inferLoop { self with data := some df, table_name := some tname }
        (DataFrame.columns df) with e | s2
    · simp only [TableInferenceTools.get_table_schema, hloop] at h
      exact absurd h (by simp)
    · exact inferLoop_ok_inv df (DataFrame.columns df) _ s2 (by simp) hloop
  have hfwd := get_table_schema_ok self df tname hok
  rw [h] at hfwd
  simp only [Except.ok.injEq, Prod.mk.injEq] at hfwd
  exact ⟨hok, hfwd.1, hfwd.2⟩

theorem mkCtm_initState_keys_nodup (df : DataFrame) :
    ((mkCtm initState df).map Prod.fst).Nodup :=
  insertMany_keys_nodup (DataFrame.columns df) initState.column_type_map
    (dfColTypeD df) (by simp [initState])

/-- On a fresh instance the returned table is just the table name paired with
the accumulated column map. -/
theorem mkTable_initState (df : DataFrame) (tname : String) :
    mkTable initState df tname = ⟨tname, mkCtm initState df⟩ := by
  have h := insertPairs_append (mkCtm initState df) []
    (mkCtm_initState_keys_nodup df) (by simp)
  simp only [List.nil_append] at h
  exact congrArg (fun l => (⟨tname, l⟩ : TableDef)) h

theorem mkCtm_initState_of_nodup (df : DataFrame)
    (hnd : (DataFrame.columns df).Nodup) :
    mkCtm initState df = (DataFrame.columns df).map (fun n => (n, dfColTypeD df n)) := by
  have h := insertMany_append (DataFrame.columns df) [] (dfColTypeD df) hnd (by simp)
  simpa [mkCtm, initState] using h

/-- C1: on a fresh instance, a successful `get_table_schema` returns a table
holding exactly one (name, type) entry per dataset column, in dataset column
order, each with its classified type; in particular no column is dropped and
none is added. -/
theorem claim_C1_columns_preserved (df : DataFrame) (tname : String)
    (t : TableDef) (s : TableInferenceTools)
    (hnd : (DataFrame.columns df).Nodup)
    (h : TableInferenceTools.get_table_schema initState df tname = .ok (t, s)) :
    t.columns = (DataFrame.columns df).map (fun n => (n, dfColTypeD df n)) ∧
    t.columns.map Prod.fst = DataFrame.columns df := by
  obtain ⟨hok, ht, hs⟩ := get_table_schema_ok_inv initState df tname t s h
  subst ht
  have hcols : (mkTable initState df tname).columns =
      (DataFrame.columns df).map (fun n => (n, dfColTypeD df n)) := by
    rw [mkTable_initState]
    exact mkCtm_initState_of_nodup df hnd
  refine ⟨hcols, ?_⟩
  rw [hcols]
  simp [List.map_map, Function.comp_def]

/-- Concrete two-column dataset used by several witnesses. -/
def wdf1 : DataFrame :=
  [("a", ⟨"boolean", "bool", none, false⟩), ("b", ⟨"integer", "int64", none, false⟩)]

/-- The table a call on `wdf1` with name "t" produces. -/
def wtbl1 : TableDef := ⟨"t", [("a", .boolean), ("b", .bigInteger)]⟩

/-- The instance state after that call. -/
def wstate1 : TableInferenceTools :=
  { data := some wdf1
    column_type_map := [("a", .boolean), ("b", .bigInteger)]
    pd_api_dtype_map := [("a", "boolean"), ("b", "integer")]
    table_name := some "t"
    table_schema := some wtbl1
    metadata := [("t", wtbl1)] }

/-- C1 witness at the concrete dataset `wdf1`. -/
theorem claim_C1_witness :
    (DataFrame.columns wdf1).Nodup ∧
      (wtbl1.columns = (DataFrame.columns wdf1).map (fun n => (n, dfColTypeD wdf1 n)) ∧
       wtbl1.columns.map Prod.fst = DataFrame.columns wdf1) :=
  ⟨by decide, claim_C1_columns_preserved wdf1 "t" wtbl1 wstate1 (by decide) (by rfl)⟩

/-- C4: when schema inference succeeds on a fresh instance, invoking it again
with the same dataset and table name on the resulting instance succeeds as
well and returns a table with the identical (column name, SQL type) sequence
(and the same table name). -/
theorem claim_C4_idempotent (df : DataFrame) (tname : String)
    (t1 : TableDef) (s1 : TableInferenceTools)
    (h1 : TableInferenceTools.get_table_schema initState df tname = .ok (t1, s1)) :
    ∃ t2 s2, TableInferenceTools.get_table_schema s1 df tname = .ok (t2, s2) ∧
      t2.columns = t1.columns ∧ t2.name = t1.name := by
  obtain ⟨hok, ht1, hs1⟩ := get_table_schema_ok_inv initState df tname t1 s1 h1
  have hs1ctm : s1.column_type_map = mkCtm initState df := by
    rw [hs1]
    rfl
  have hctm2 : mkCtm s1 df = mkCtm initState df := by
    rw [mkCtm, hs1ctm]
    exact insertMany_noop (DataFrame.columns df) (mkCtm initState df) (dfColTypeD df)
      (fun n hn =>
        insertMany_lookup_mem (DataFrame.columns df) initState.column_type_map
          (dfColTypeD df) n hn)
  have hmd : s1.metadata = [(tname, t1)] := by
    rw [hs1, ht1]
    simp [mkState, Table_new, dictLookup, dictInsert]
  have htn2 : Table_new tname s1.metadata = (t1, s1.metadata) := by
    rw [hmd]
    simp [Table_new, dictLookup]
  have ht1cols : t1.columns = mkCtm initState df := by
    rw [ht1, mkTable_initState]
  have hknd : ((mkCtm initState df).map Prod.fst).Nodup := mkCtm_initState_keys_nodup df
  have hnoop : insertPairs (mkCtm initState df) (mkCtm initState df) = mkCtm initState df :=
    insertPairs_noop (mkCtm initState df) (mkCtm initState df)
      (fun kv hkv => dictLookup_of_mem_nodup (mkCtm initState df) kv.1 kv.2 hkv hknd)
  have ht2cols : (mkTable s1 df tname).columns = t1.columns := by
    simp only [mkTable, htn2, hctm2, ht1cols]
    exact hnoop
  have ht2name : (mkTable s1 df tname).name = t1.name := by
    simp only [mkTable, htn2]
  exact ⟨mkTable s1 df tname, mkState s1 df tname,
    get_table_schema_ok s1 df tname hok, ht2cols, ht2name⟩

/-- C4 witness: the concrete first call on `wdf1` and the second call on the
resulting state. -/
theorem claim_C4_witness :
    ∃ t2 s2, TableInferenceTools.get_table_schema wstate1 wdf1 "t" = .ok (t2, s2) ∧
      t2.columns = wtbl1.columns ∧ t2.name = wtbl1.name :=
  claim_C4_idempotent wdf1 "t" wtbl1 wstate1 (by rfl)

/-- C8: if the dataset holds a column the classifier rejects (complex, or
integer of width uint64), `get_table_schema` on a fresh instance propagates
the raised error: the call returns an error and no table definition at all. -/
theorem claim_C8_error_propagates (df : DataFrame) (tname colname : String) (c : Col)
    (hc : dictLookup df colname = some c)
    (hrej : c.inferred_dtype = "complex" ∨
      (c.inferred_dtype = "integer" ∧ strLower c.dtype_name = "uint64")) :
    ∃ e, TableInferenceTools.get_table_schema initState df tname = .error e := by
  rcases hres : TableInferenceTools.get_table_schema initState df tname with e | ts
  · exact ⟨e, rfl⟩
  · obtain ⟨t, s⟩ := ts
    obtain ⟨hok, -, -⟩ := get_table_schema_ok_inv initState df tname t s hres
    have hmem : colname ∈ DataFrame.columns df := dictLookup_mem_keys df colname c hc
    obtain ⟨c', t', w', hc', hcore⟩ := hok colname hmem
    rw [hc] at hc'
    injection hc' with hcc
    subst hcc
    have herr : ∃ e, infer_core c = .error e := by
      rcases hrej with h | ⟨h1, h2⟩
      · exact ⟨.valueError "Complex datatypes not supported", by simp [infer_core, h]⟩
      · exact ⟨.valueError "Unsigned 64 bit integer datatype is not supported",
          by simp [infer_core, h1, h2]⟩
    obtain ⟨e', he'⟩ := herr
    rw [hcore] at he'
    exact Except.noConfusion he'

/-- C8 witness at a concrete one-column complex dataset. -/
theorem claim_C8_witness :
    ∃ e, TableInferenceTools.get_table_schema initState
      [("z", ⟨"complex", "complex128", none, false⟩)] "t" = .error e :=
  claim_C8_error_propagates [("z", ⟨"complex", "complex128", none, false⟩)] "t" "z"
    ⟨"complex", "complex128", none, false⟩ (by rfl) (Or.inl rfl)

/-- C10: the instance maps are never cleared between calls.  After a second
successful call on the same instance with another dataset, both
`column_type_map` and `pd_api_dtype_map` hold one entry per column name of
either dataset, in first-seen order, and the second call's table likewise
holds a column for every column of every previously processed dataset, not
only the current one. -/
theorem claim_C10_state_accumulates (df1 df2 : DataFrame) (n1 n2 : String)
    (t1 t2 : TableDef) (s1 s2 : TableInferenceTools)
    (hnd1 : (DataFrame.columns df1).Nodup) (hnd2 : (DataFrame.columns df2).Nodup)
    (h1 : TableInferenceTools.get_table_schema initState df1 n1 = .ok (t1, s1))
    (h2 : TableInferenceTools.get_table_schema s1 df2 n2 = .ok (t2, s2)) :
    s2.column_type_map.map Prod.fst =
      DataFrame.columns df1 ++
        (DataFrame.columns df2).filter (fun n => decide (n ∉ DataFrame.columns df1)) ∧
    s2.pd_api_dtype_map.map Prod.fst =
      DataFrame.columns df1 ++
        (DataFrame.columns df2).filter (fun n => decide (n ∉ DataFrame.columns df1)) ∧
    t2.columns.map Prod.fst =
      DataFrame.columns df1 ++
        (DataFrame.columns df2).filter (fun n => decide (n ∉ DataFrame.columns df1)) := by
  obtain ⟨hok1, ht1, hs1⟩ := get_table_schema_ok_inv initState df1 n1 t1 s1 h1
  obtain ⟨hok2, ht2, hs2⟩ := get_table_schema_ok_inv s1 df2 n2 t2 s2 h2
  have hs1ctm : s1.column_type_map = mkCtm initState df1 := by
    rw [hs1]
    rfl
  have hs1pdm : s1.pd_api_dtype_map = mkPdm initState df1 := by
    rw [hs1]
    rfl
  have hk1 : (mkCtm initState df1).map Prod.fst = DataFrame.columns df1 := by
    have h := insertMany_keys (DataFrame.columns df1) initState.column_type_map
      (dfColTypeD df1) hnd1
    simpa [mkCtm, initState] using h
  have hp1 : (mkPdm initState df1).map Prod.fst = DataFrame.columns df1 := by
    have h := insertMany_keys (DataFrame.columns df1) initState.pd_api_dtype_map
      (dfColKindD df1) hnd1
    simpa [mkPdm, initState] using h
  have hk2 : (mkCtm s1 df2).map Prod.fst =
      DataFrame.columns df1 ++
        (DataFrame.columns df2).filter (fun n => decide (n ∉ DataFrame.columns df1)) := by
    rw [mkCtm, hs1ctm, insertMany_keys (DataFrame.columns df2) (mkCtm initState df1)
      (dfColTypeD df2) hnd2]
    simp only [hk1]
  have hp2 : (mkPdm s1 df2).map Prod.fst =
      DataFrame.columns df1 ++
        (DataFrame.columns df2).filter (fun n => decide (n ∉ DataFrame.columns df1)) := by
    rw [mkPdm, hs1pdm, insertMany_keys (DataFrame.columns df2) (mkPdm initState df1)
      (dfColKindD df2) hnd2]
    simp only [hp1]
  refine ⟨?_, ?_, ?_⟩
  · rw [hs2]
    exact hk2
  · rw [hs2]
    exact hp2
  · rw [ht2]
    have hmd1 : s1.metadata = [(n1, t1)] := by
      rw [hs1, ht1]
      simp [mkState, Table_new, dictLookup, dictInsert]
    have ht1cols : t1.columns = mkCtm initState df1 := by
      rw [ht1, mkTable_initState]
    have hknd2 : ((mkCtm s1 df2).map Prod.fst).Nodup := by
      rw [mkCtm]
      exact insertMany_keys_nodup (DataFrame.columns df2) s1.column_type_map
        (dfColTypeD df2) (by rw [hs1ctm, hk1]; exact hnd1)
    by_cases hn : n1 = n2
    · have htn : (Table_new n2 s1.metadata).1 = t1 := by
        rw [hmd1]
        simp [Table_new, dictLookup, hn]
      simp only [mkTable, htn]
      rw [insertPairs_keys (mkCtm s1 df2) t1.columns hknd2]
      simp only [ht1cols, hk1, hk2]
      rw [List.filter_append]
      have hfn : (DataFrame.columns df1).filter
          (fun k => decide (k ∉ DataFrame.columns df1)) = [] :=
        List.filter_eq_nil_iff.mpr (fun a ha => by simp [ha])
      have hfs : ((DataFrame.columns df2).filter
            (fun n => decide (n ∉ DataFrame.columns df1))).filter
          (fun k => decide (k ∉ DataFrame.columns df1)) =
          (DataFrame.columns df2).filter (fun n => decide (n ∉ DataFrame.columns df1)) :=
        List.filter_eq_self.mpr (fun a ha => (List.mem_filter.mp ha).2)
      rw [hfn, hfs, List.nil_append]
    · have htn : (Table_new n2 s1.metadata).1 = ⟨n2, []⟩ := by
        rw [hmd1]
        simp [Table_new, dictLookup, hn]
      simp only [mkTable, htn]
      rw [insertPairs_keys (mkCtm s1 df2) [] hknd2, hk2]
      simp

/-- A second concrete dataset for the C10 witness. -/
def wdf2 : DataFrame := [("c", ⟨"date", "object", none, false⟩)]

/-- The table the second call (name "u") on state `wstate1` produces: it still
carries the columns of `wdf1`. -/
def wtbl2 : TableDef :=
  ⟨"u", [("a", .boolean), ("b", .bigInteger), ("c", .date)]⟩

/-- The instance state after the second call. -/
def wstate2 : TableInferenceTools :=
  { data := some wdf2
    column_type_map := [("a", .boolean), ("b", .bigInteger), ("c", .date)]
    pd_api_dtype_map := [("a", "boolean"), ("b", "integer"), ("c", "date")]
    table_name := some "u"
    table_schema := some wtbl2
    metadata := [("t", wtbl1), ("u", wtbl2)] }

/-- C10 witness: the concrete calls on `wdf1` then `wdf2`. -/
theorem claim_C10_witness :
    wstate2.column_type_map.map Prod.fst =
      DataFrame.columns wdf1 ++
        (DataFrame.columns wdf2).filter (fun n => decide (n ∉ DataFrame.columns wdf1)) ∧
    wstate2.pd_api_dtype_map.map Prod.fst =
      DataFrame.columns wdf1 ++
        (DataFrame.columns wdf2).filter (fun n => decide (n ∉ DataFrame.columns wdf1)) ∧
    wtbl2.columns.map Prod.fst =
      DataFrame.columns wdf1 ++
        (DataFrame.columns wdf2).filter (fun n => decide (n ∉ DataFrame.columns wdf1)) :=
  claim_C10_state_accumulates wdf1 wdf2 "t" "u" wtbl1 wtbl2 wstate1 wstate2
    (by decide) (by decide) (by rfl) (by rfl)
